import Mathlib

/-!
Verification of the hierarchical aggregation structure (`tree.py`) and the
item model (`files.py`) of the drivetransfers repository, as a shallow
embedding: Python dicts become insertion-ordered association lists, Python
values become an inductive value universe, the auto-vivifying `__missing__`
protocol and the `__delitem__` method become executable Lean functions, and
`__delitem__`'s self-recursion (both `del self[key]` statements resolve to
`type(self).__delitem__`, i.e. the method being defined) is made explicit
with a fuel parameter.
-/

/-- Variant tag carried by an `ItemID` (`ItemID.type` in `files.py`): the
`File` or the `Folder` class object. -/
inductive Tag where
  | file
  | folder
  deriving DecidableEq

/-- Key universe of a `FileTree` dict: an `ItemID` object (a `str` subclass
carrying a runtime variant tag) or a plain path-segment string.  Dict
membership compares keys by `str.__eq__` and `str.__hash__`, which `ItemID`
inherits unchanged, so only the underlying string matters for lookup. -/
inductive PyKey where
  | itemId (s : String) (tag : Tag)
  | str (s : String)
  deriving DecidableEq

mutual
/-- Value universe covering every value the structure's own operations store:
`None`, ints, Python lists, plain dicts (the aggregation-node records built
by `__overloaded_missing__`) and `FileTree` instances.  The object graph is
represented as a tree; the structure's own operations never create sharing,
so this representation is exact for the states they build. -/
inductive PyVal where
  | none
  | int (n : Int)
  | list (xs : PyList)
  | dict (fs : PyEntries)
  | tree (es : PyEntries)

/-- Entries of a Python dict: an insertion-ordered association list. -/
inductive PyEntries where
  | nil
  | cons (k : PyKey) (v : PyVal) (rest : PyEntries)

/-- Elements of a Python list. -/
inductive PyList where
  | nil
  | cons (v : PyVal) (rest : PyList)
end

/-- Underlying string of a dict key (`ItemID` "is-a" `str`). -/
def keyStr : PyKey → String
  | .itemId s _ => s
  | .str s => s

/-- Dict lookup by key, comparing underlying strings (the hash and equality
of the `str`-backed keys). -/
def lookupVal : PyEntries → String → Option PyVal
  | .nil, _ => Option.none
  | .cons k v rest, s => if keyStr k == s then some v else lookupVal rest s

/-- Dict store `self[k] = v`: replaces the value of the first entry whose key
string matches, keeping the originally stored key object (as CPython does),
otherwise appends a new entry at the end. -/
def setEntry : PyEntries → PyKey → PyVal → PyEntries
  | .nil, k, v => .cons k v .nil
  | .cons k0 v0 rest, k, v =>
      if keyStr k0 == keyStr k then .cons k0 v rest
      else .cons k0 v0 (setEntry rest k v)

/-- Replace the value stored under key string `s` (no-op when absent). -/
def setValueAt : PyEntries → String → PyVal → PyEntries
  | .nil, _, _ => .nil
  | .cons k0 v0 rest, s, v =>
      if keyStr k0 == s then .cons k0 v rest
      else .cons k0 v0 (setValueAt rest s v)

/-- Append a fresh entry at the end of a dict. -/
def appendEntry : PyEntries → PyKey → PyVal → PyEntries
  | .nil, k, v => .cons k v .nil
  | .cons k0 v0 rest, k, v => .cons k0 v0 (appendEntry rest k v)

/-- Number of entries of a dict (`len`). -/
def lengthEntries : PyEntries → Nat
  | .nil => 0
  | .cons _ _ rest => lengthEntries rest + 1

/-- Character class `[-\w]` of `Item.pattern` (the ASCII fragment of `\w`:
letters, digits, underscore, plus the hyphen). -/
def isIdChar (c : Char) : Bool := c.isAlphanum || c == '_' || c == '-'

/-- Full match against `Item.pattern = re.compile(r'[-\w]{25,}')`: at least
25 characters, all drawn from the class. -/
def patternFullmatch (s : String) : Bool :=
  decide (25 ≤ s.data.length) && s.data.all isIdChar

/-- `Item.is_valid_id`: `cls.pattern.fullmatch(id_) is not None`. -/
def is_valid_id (s : String) : Bool := patternFullmatch s

/-- Store `obj[f] = v` on a dict or `FileTree` value (helper for the field
assignments in `__overloaded_missing__`; only ever applied to dicts there). -/
def storeField : PyVal → String → PyVal → PyVal
  | .dict fs, f, v => .dict (setEntry fs (.str f) v)
  | .tree es, f, v => .tree (setEntry es (.str f) v)
  | obj, _, _ => obj

/-- `dict.fromkeys(['info', 'ancestors', 'size'])`: each key mapped to
`None`. -/
def fromKeysNone : List String → PyEntries
  | [] => .nil
  | s :: rest => .cons (.str s) .none (fromKeysNone rest)

/-- Aggregation node built by `FileTree.__overloaded_missing__` for an absent
`ItemID` key, mirroring its statements (the node is freshly assigned to
`self[key]`, so mutating it before insertion is equivalent to mutating it
through `self[key]` after insertion):
`self[key] = dict.fromkeys(['info', 'ancestors', 'size'])`;
`self[key]['ancestors'] = list()`; if `key.type == Folder` then
`self[key]['items'] = type(self)()` and `self[key]['nitems'] = 0`; finally
`self[key]['size'] = 0`. -/
def missingItemNode (tag : Tag) : PyVal :=
  let d := PyVal.dict (fromKeysNone ["info", "ancestors", "size"])
  let d := storeField d "ancestors" (.list .nil)
  let d :=
    if tag == Tag.folder then
      storeField (storeField d "items" (.tree .nil)) "nitems" (.int 0)
    else d
  storeField d "size" (.int 0)

/-- One `FileTree` access `self[key]`: returns the present value unchanged,
or runs `__missing__`/`__overloaded_missing__` to create, insert and return
the lazy default (the spec's `get_or_create`). -/
def getOrCreate (es : PyEntries) (k : PyKey) : PyVal × PyEntries :=
  match lookupVal es (keyStr k) with
  | some v => (v, es)
  | Option.none =>
      match k with
      | .itemId _ tag =>
          let v := missingItemNode tag
          (v, setEntry es k v)
      | .str _ =>
          (.tree .nil, setEntry es k (.tree .nil))

/-- Python truthiness of the values in our universe. -/
def truthy : PyVal → Bool
  | .none => false
  | .int n => !(n == 0)
  | .list .nil => false
  | .list (.cons _ _) => true
  | .dict .nil => false
  | .dict (.cons _ _ _) => true
  | .tree .nil => false
  | .tree (.cons _ _ _) => true

/-- Python exceptions arising along `__delitem__`'s paths. -/
inductive PyErr where
  | typeErr
  | keyErr
  | valueErr
  | nameErr
  deriving DecidableEq

/-- Outcome of a fuel-bounded `__delitem__` call: `ok` would be a normal
return, `err` an exception, and `spin` that the recursion budget was
exhausted (Python: `RecursionError`, since every non-raising path of the
method re-enters `del self[key]`). -/
inductive DelRes where
  | ok
  | err (e : PyErr)
  | spin
  deriving DecidableEq

/-- Whether a `__delitem__` outcome is a normal (non-raising) return. -/
def DelRes.isOk : DelRes → Bool
  | .ok => true
  | _ => false

/-- Subscript load `obj[f]` for a string key: plain dicts raise `KeyError`
when the key is absent, `FileTree`s auto-create via `__missing__`, and any
other receiver raises `TypeError`.  Returns the loaded value together with
the possibly mutated container. -/
def pyLoad (obj : PyVal) (f : String) : Except PyErr (PyVal × PyVal) :=
  match obj with
  | .dict fs =>
      match lookupVal fs f with
      | some v => .ok (v, obj)
      | Option.none => .error .keyErr
  | .tree es =>
      let p := getOrCreate es (.str f)
      .ok (p.1, .tree p.2)
  | _ => .error .typeErr

/-- Subscript store `obj[f] = v` for a string key (dicts and `FileTree`s
only; any other receiver raises `TypeError`). -/
def pyStore (obj : PyVal) (f : String) (v : PyVal) : Except PyErr PyVal :=
  match obj with
  | .dict fs => .ok (.dict (setEntry fs (.str f) v))
  | .tree es => .ok (.tree (setEntry es (.str f) v))
  | _ => .error .typeErr

/-- Python subtraction `a - b`: only int minus int succeeds among the values
of our universe; every other combination raises `TypeError`. -/
def pySub (a b : PyVal) : Except PyErr PyVal :=
  match a, b with
  | .int m, .int n => .ok (.int (m - n))
  | _, _ => .error .typeErr

/-- The loop `for ancestor in val['ancestors']: ancestor['size'] -=
val['size']` in the case where `val['ancestors']` is a Python list.  Threads
`val`'s entries (the load `val['size']` auto-creates on a `FileTree`) and
returns the mutated elements; on an exception it reports the error together
with the elements mutated so far. -/
def ancLoop : PyList → PyEntries → Option PyErr × PyList × PyEntries
  | .nil, ves => (Option.none, .nil, ves)
  | .cons a rest, ves =>
      match pyLoad a "size" with
      | .error e => (some e, .cons a rest, ves)
      | .ok (asize, a1) =>
          let p := getOrCreate ves (.str "size")
          match pySub asize p.1 with
          | .error e => (some e, .cons a1 rest, p.2)
          | .ok d =>
              match pyStore a1 "size" d with
              | .error e => (some e, .cons a1 rest, p.2)
              | .ok a2 =>
                  match ancLoop rest p.2 with
                  | (r, rest1, ves2) => (r, .cons a2 rest1, ves2)

/-- Last element of a Python list, when there is one. -/
def lastElem? : PyList → Option PyVal
  | .nil => Option.none
  | .cons v .nil => some v
  | .cons _ (.cons w rest) => lastElem? (.cons w rest)

/-- Replace the last element of a Python list. -/
def updateLast : PyList → PyVal → PyList
  | .nil, _ => .nil
  | .cons _ .nil, a => .cons a .nil
  | .cons v (.cons w rest), a => .cons v (updateLast (.cons w rest) a)

/-- Reflect `__delitem__`'s mutations of `val` and of the ancestors list back
into `self` through the `val = self[key]` alias. -/
def delWriteBack (es : PyEntries) (key : PyKey) (ves : PyEntries)
    (xs : PyList) : PyEntries :=
  setEntry es key (.tree (setEntry ves (.str "ancestors") (.list xs)))

/-- Statements of `__delitem__` that run between the for-loop and the final
`del self[key]` when `val['ancestors']` is a Python list: the loop itself,
then `ancestor['nitems'] -= 1` on the loop variable leaked out of the loop
(the LAST ancestor only).  The trailing conditional
`if ancestor['nitems'] == 0 and ancestor['size'] == 0: del ancestor` is pure:
both loads succeed ('nitems' was just stored, 'size' was stored by the loop,
and a tree-shaped ancestor cannot reach it since `pySub` rejects its
auto-created default), `==` never raises, and `del ancestor` merely unbinds
the local name, so the statement leaves the structure untouched. -/
def ancestorPhase (xs : PyList) (ves : PyEntries) :
    Option PyErr × PyList × PyEntries :=
  match ancLoop xs ves with
  | (some e, xs1, ves2) => (some e, xs1, ves2)
  | (Option.none, xs1, ves2) =>
      match lastElem? xs1 with
      | Option.none =>
          -- unreachable: the list was truthy, hence non-empty (Python would
          -- raise NameError for the unbound name 'ancestor')
          (some .nameErr, xs1, ves2)
      | some a =>
          match pyLoad a "nitems" with
          | .error e => (some e, xs1, ves2)
          | .ok (nv, a1) =>
              match pySub nv (.int 1) with
              | .error e => (some e, updateLast xs1 a1, ves2)
              | .ok d =>
                  match pyStore a1 "nitems" d with
                  | .error e => (some e, updateLast xs1 a1, ves2)
                  | .ok a2 => (Option.none, updateLast xs1 a2, ves2)

/-- `FileTree.__delitem__`, with an explicit recursion budget: both
`del self[key]` statements inside the method re-invoke the method itself
(Python resolves `del self[key]` through `type(self).__delitem__`, the very
method being defined, not `dict.__delitem__`), so the translation recurses on
`fuel`. -/
def delitem : Nat → PyEntries → PyKey → DelRes × PyEntries
  | 0, es, _ => (.spin, es)
  | fuel + 1, es, key =>
      -- val = self[key]  (auto-creates through __missing__ when absent)
      match getOrCreate es key with
      | (PyVal.tree ves, es1) =>
          -- isinstance(val, type(self)) holds; evaluate `val['ancestors']`
          -- (auto-creates an empty FileTree when absent) and reflect the
          -- mutation of val back into self through the alias.
          match getOrCreate ves (.str "ancestors") with
          | (anc, ves1) =>
              if truthy anc then
                match anc with
                | .list xs =>
                    match ancestorPhase xs ves1 with
                    | (some e, xs1, ves2) =>
                        (.err e, delWriteBack es1 key ves2 xs1)
                    | (Option.none, xs2, ves2) =>
                        -- del self[key]  → re-enters __delitem__
                        delitem fuel (delWriteBack es1 key ves2 xs2) key
                | _ =>
                    -- iterating a dict or FileTree yields its keys
                    -- (str-backed objects) and iterating an int or None
                    -- raises immediately: either way the loop body's
                    -- subscript `ancestor['size']` is a TypeError
                    (.err .typeErr, setEntry es1 key (.tree ves1))
              else
                -- del self[key]  → re-enters __delitem__
                delitem fuel (setEntry es1 key (.tree ves1)) key
      | (_, es1) =>
          -- val is not a FileTree (the aggregation-node records built by
          -- __overloaded_missing__ are plain dicts, so they skip the whole
          -- propagation branch)
          -- del self[key]  → re-enters __delitem__
          delitem fuel es1 key

/-- Application of an entries transformation `f` (one `FileTree` operation)
at some FileTree object inside the state's object graph: at the root tree, at
a tree stored under an entry of a tree, or at a tree stored in a field of an
aggregation-node dict (e.g. a Folder node's `items`). -/
inductive AppliesAt (f : PyEntries → PyEntries) : PyVal → PyVal → Prop
  | here (es : PyEntries) : AppliesAt f (.tree es) (.tree (f es))
  | inEntry (es : PyEntries) (s : String) (v v' : PyVal) :
      lookupVal es s = some v → AppliesAt f v v' →
      AppliesAt f (.tree es) (.tree (setValueAt es s v'))
  | inField (fs : PyEntries) (g : String) (v v' : PyVal) :
      lookupVal fs g = some v → AppliesAt f v v' →
      AppliesAt f (.dict fs) (.dict (setValueAt fs g v'))

/-- Keys an operation can actually be called with: `ItemID.__new__` enforces
the identifier pattern, so only pattern-valid tagged identifiers exist as
objects; plain strings are unrestricted. -/
def validOpKey : PyKey → Bool
  | .itemId s _ => is_valid_id s
  | .str _ => true

/-- Tree states reachable from a fresh `FileTree()` by any sequence of
lookups (`get_or_create`) and `__delitem__` calls, each applied at any
FileTree inside the structure; a `__delitem__` call contributes the state its
mutations have produced by the time it raises or its budget runs out. -/
inductive Reachable : PyEntries → Prop
  | init : Reachable .nil
  | lookup (es es' : PyEntries) (k : PyKey) :
      Reachable es → validOpKey k = true →
      AppliesAt (fun t => (getOrCreate t k).2) (.tree es) (.tree es') →
      Reachable es'
  | remove (es es' : PyEntries) (k : PyKey) (fuel : Nat) :
      Reachable es → validOpKey k = true →
      AppliesAt (fun t => (delitem fuel t k).2) (.tree es) (.tree es') →
      Reachable es'

/-- Integer stored under a field name, as the invariants read it: the field
must be present and be an int. -/
def intField? (fs : PyEntries) (f : String) : Option Int :=
  match lookupVal fs f with
  | some (.int n) => some n
  | _ => Option.none

mutual
/-- Sum of the `size` contributions over the entries of a structure,
descending through plain nested sub-structures: the spec's "sum of `size`
over all entries in its `items` sub-structure". -/
def sumSizes : PyEntries → Int
  | .nil => 0
  | .cons _ v rest => nodeSize v + sumSizes rest

/-- Contribution of one stored value: an aggregation-node record contributes
its own `size` field, a nested plain sub-structure the sum over its entries,
anything else contributes nothing. -/
def nodeSize : PyVal → Int
  | .dict fs =>
      match intField? fs "size" with
      | some n => n
      | Option.none => 0
  | .tree es => sumSizes es
  | _ => 0
end

/-- Size-aggregation check for one aggregation-node record: if the dict holds
an `items` sub-structure, its `size` field must equal the sum of `size` over
the entries of `items`. -/
def folderSizeOk (fs : PyEntries) : Bool :=
  match lookupVal fs "items" with
  | some (.tree ies) =>
      match intField? fs "size" with
      | some n => n == sumSizes ies
      | Option.none => false
  | _ => true

mutual
/-- The claimed size invariant, everywhere in a state: every Folder
aggregation node's `size` equals the sum of `size` over the entries of its
`items` sub-structure, transitively. -/
def sizeInvB : PyVal → Bool
  | .tree es => sizeInvEntries es
  | .dict fs => folderSizeOk fs && sizeInvEntries fs
  | .list xs => sizeInvList xs
  | _ => true

/-- `sizeInvB` over the entries of a dict. -/
def sizeInvEntries : PyEntries → Bool
  | .nil => true
  | .cons _ v rest => sizeInvB v && sizeInvEntries rest

/-- `sizeInvB` over the elements of a list. -/
def sizeInvList : PyList → Bool
  | .nil => true
  | .cons v rest => sizeInvB v && sizeInvList rest
end

/-- Item-count check for one aggregation-node record: with an `items`
sub-structure present, `nitems` must equal the number of its direct
entries. -/
def folderNitemsOk (fs : PyEntries) : Bool :=
  match lookupVal fs "items" with
  | some (.tree ies) =>
      match intField? fs "nitems" with
      | some n => n == (lengthEntries ies : Int)
      | Option.none => false
  | _ => true

mutual
/-- The claimed item-count invariant, everywhere in a state: every Folder
aggregation node's `nitems` equals the number of direct entries of its
`items` sub-structure. -/
def nitemsInvB : PyVal → Bool
  | .tree es => nitemsInvEntries es
  | .dict fs => folderNitemsOk fs && nitemsInvEntries fs
  | .list xs => nitemsInvList xs
  | _ => true

/-- `nitemsInvB` over the entries of a dict. -/
def nitemsInvEntries : PyEntries → Bool
  | .nil => true
  | .cons _ v rest => nitemsInvB v && nitemsInvEntries rest

/-- `nitemsInvB` over the elements of a list. -/
def nitemsInvList : PyList → Bool
  | .nil => true
  | .cons v rest => nitemsInvB v && nitemsInvList rest
end

/-- Check that every `nitems` field anywhere in a state is the int 0. -/
def folderNitemsZero (fs : PyEntries) : Bool :=
  match lookupVal fs "nitems" with
  | some (.int n) => n == 0
  | some _ => false
  | Option.none => true

mutual
/-- Every aggregation-node record's `nitems` field, anywhere in the state,
equals 0. -/
def nitemsZeroB : PyVal → Bool
  | .tree es => nitemsZeroEntries es
  | .dict fs => folderNitemsZero fs && nitemsZeroEntries fs
  | .list xs => nitemsZeroList xs
  | _ => true

/-- `nitemsZeroB` over the entries of a dict. -/
def nitemsZeroEntries : PyEntries → Bool
  | .nil => true
  | .cons _ v rest => nitemsZeroB v && nitemsZeroEntries rest

/-- `nitemsZeroB` over the elements of a list. -/
def nitemsZeroList : PyList → Bool
  | .nil => true
  | .cons v rest => nitemsZeroB v && nitemsZeroList rest
end

/-- Field list of the node `__overloaded_missing__` builds for a File-tagged
identifier. -/
def fileNodeShape : PyEntries → Bool
  | .cons (.str "info") .none
      (.cons (.str "ancestors") (.list .nil)
        (.cons (.str "size") (.int 0) .nil)) => true
  | _ => false

mutual
/-- Well-formedness of every state the structure's own operations can build:
string keys map to sub-`FileTree`s, File-tagged identifier keys map to the
lazily created file node, Folder-tagged identifier keys map to the lazily
created folder node whose `items` is again well-formed, and identifier keys
carry pattern-valid strings (no other identifier object can exist). -/
def goodEntries : PyEntries → Bool
  | .nil => true
  | .cons k v rest => goodEntry k v && goodEntries rest

/-- Well-formedness of one stored entry, keyed by the stored key object. -/
def goodEntry : PyKey → PyVal → Bool
  | .str _, .tree es => goodEntries es
  | .itemId s .file, .dict fs => is_valid_id s && fileNodeShape fs
  | .itemId s .folder, .dict fs => is_valid_id s && goodFolderFields fs
  | _, _ => false

/-- Field list of the node built for a Folder-tagged identifier, with
well-formed `items` entries. -/
def goodFolderFields : PyEntries → Bool
  | .cons (.str "info") .none
      (.cons (.str "ancestors") (.list .nil)
        (.cons (.str "size") (.int 0)
          (.cons (.str "items") (.tree ies)
            (.cons (.str "nitems") (.int 0) .nil)))) => goodEntries ies
  | _ => false
end

/-- A value as a lookup can return it in a well-formed state: a well-formed
sub-`FileTree`, the file node shape, or the folder node shape with
well-formed `items`. -/
def goodNode : PyVal → Bool
  | .tree es => goodEntries es
  | .dict fs => fileNodeShape fs || goodFolderFields fs
  | _ => false

/-- The reserved folder mime type constant `FOLDER_MIME_TYPE`. -/
def FOLDER_MIME_TYPE : String := "application/vnd.google-apps.folder"

/-- Character class `[a-fA-F\d]` of `Item.checksum`. -/
def isHexChar (c : Char) : Bool :=
  c.isDigit || ('a' ≤ c && c ≤ 'f') || ('A' ≤ c && c ≤ 'F')

/-- Full match against `Item.checksum = re.compile(r'[a-fA-F\d]{32}')`:
exactly 32 characters, all hexadecimal digits. -/
def checksumFullmatch (s : String) : Bool :=
  (s.data.length == 32) && s.data.all isHexChar

/-- Configuration of the `String` field validator of `files.py`: length
bounds, an optional predicate and an optional pattern (a full-match
function). -/
structure StringValidator where
  minlen : Nat
  maxlen : Nat
  predicate : Option (String → Bool)
  pattern : Option (String → Bool)

/-- The condition `self.predicate is not None and not self.predicate(value)`
of `String.validate`. -/
def predicateFails : Option (String → Bool) → String → Bool
  | some p, s => !(p s)
  | Option.none, _ => false

/-- The condition `self.pattern is not None and self.pattern.fullmatch(value)
is None` of `String.validate`. -/
def patternFails : Option (String → Bool) → String → Bool
  | some m, s => !(m s)
  | Option.none, _ => false

/-- `String.validate`, checks in source order; the `isinstance(value, str)`
check is immediate because the embedding types the value as a string.  Each
failing check raises `ValueError` (`TypeError` handled by typing). -/
def String.validateField (v : StringValidator) (value : String) :
    Except PyErr Unit :=
  if value.length < v.minlen then .error .valueErr
  else if value.length > v.maxlen then .error .valueErr
  else if predicateFails v.predicate value then .error .valueErr
  else if patternFails v.pattern value then .error .valueErr
  else .ok ()

/-- `NonNegativeInt.validate` (the `isinstance(value, int)` check is
immediate because the embedding types the value as an integer). -/
def NonNegativeInt.validateField (maxval : Option Int) (value : Int) :
    Except PyErr Unit :=
  if value < 0 then .error .valueErr
  else
    match maxval with
    | some m => if value > m then .error .valueErr else .ok ()
    | Option.none => .ok ()

/-- `ItemID.__new__`: `if not Item.is_valid_id(arg): raise TypeError("Not a
valid ItemID.")`, then the identifier is the string itself plus the
caller-supplied tag. -/
def itemIdNew (arg : String) (tag : Tag) : Except PyErr PyKey :=
  if !(is_valid_id arg) then .error .typeErr
  else .ok (.itemId arg tag)

/-- `ItemID` equality: inherited unchanged from `str.__eq__` (the class
defines neither `__eq__` nor `__hash__`), so it compares underlying strings
and ignores the variant tag. -/
def idEq (a b : PyKey) : Bool := keyStr a == keyStr b

/-- `ItemID` hash: inherited unchanged from `str.__hash__`, hence computed
from the underlying string alone, ignoring the variant tag. -/
def idHash (k : PyKey) : UInt64 := (keyStr k).hash

/-- `id = String(pattern=Item.pattern)` of both `File` and `Folder`. -/
def idValidator : StringValidator :=
  ⟨0, 9999, Option.none, some patternFullmatch⟩

/-- `mimeType = String(predicate=FOLDER_MIME_TYPE.__ne__)` of `File`. -/
def fileMimeValidator : StringValidator :=
  ⟨0, 9999, some (fun s => !(s == FOLDER_MIME_TYPE)), Option.none⟩

/-- `mimeType = String(predicate=FOLDER_MIME_TYPE.__eq__)` of `Folder`. -/
def folderMimeValidator : StringValidator :=
  ⟨0, 9999, some (fun s => s == FOLDER_MIME_TYPE), Option.none⟩

/-- `md5checksum = String(pattern=Item.checksum)` of `File`. -/
def md5Validator : StringValidator :=
  ⟨0, 9999, Option.none, some checksumFullmatch⟩

/-- A constructed `File` record: the attributes `File.__init__` assigns, in
order (`id`, `kind`, `name`, `mimeType`, `parents`, `size`, `md5checksum`,
`trashed`). -/
structure File where
  id : String
  kind : String
  name : String
  mimeType : String
  parents : List PyKey
  size : Int
  md5checksum : String
  trashed : Bool

/-- A constructed `Folder` record: the attributes `Folder.__init__` assigns,
in order (`id`, `kind`, `name`, `mimeType`, `parents`, `trashed`). -/
structure Folder where
  id : String
  kind : String
  name : String
  mimeType : String
  parents : List PyKey
  trashed : Bool

/-- `[ItemID(parent, type=Folder) for parent in parents]`: each entry must
validate as a Folder-tagged identifier, otherwise construction raises. -/
def validateParents : List String → Except PyErr (List PyKey)
  | [] => .ok []
  | p :: rest =>
      match itemIdNew p Tag.folder with
      | .error e => .error e
      | .ok k =>
          match validateParents rest with
          | .error e => .error e
          | .ok ks => .ok (k :: ks)

/-- `File.__init__`, validations in assignment order: `id` through its
descriptor; `kind` and `name` are plain slots assigned WITHOUT validation;
`mimeType` through its descriptor; each parent through `ItemID`; `size`
(already coerced to an integer, `int(size)` in the source) through
`NonNegativeInt()`; `md5checksum` through its descriptor; `trashed` plain. -/
def File.create (id name mimeType : String) (parents : List String)
    (trashed : Bool) (size : Int) (md5checksum : String) :
    Except PyErr File :=
  match String.validateField idValidator id with
  | .error e => .error e
  | .ok _ =>
  match String.validateField fileMimeValidator mimeType with
  | .error e => .error e
  | .ok _ =>
  match validateParents parents with
  | .error e => .error e
  | .ok ps =>
  match NonNegativeInt.validateField Option.none size with
  | .error e => .error e
  | .ok _ =>
  match String.validateField md5Validator md5checksum with
  | .error e => .error e
  | .ok _ => .ok ⟨id, "File", name, mimeType, ps, size, md5checksum, trashed⟩

/-- `Folder.__init__`, validations in assignment order: `id` through its
descriptor; `kind` and `name` plain slots WITHOUT validation; `mimeType`
through its descriptor (the source defaults it to `FOLDER_MIME_TYPE`); each
parent through `ItemID`; `trashed` plain. -/
def Folder.create (id name : String) (parents : List String) (trashed : Bool)
    (mimeType : String) : Except PyErr Folder :=
  match String.validateField idValidator id with
  | .error e => .error e
  | .ok _ =>
  match String.validateField folderMimeValidator mimeType with
  | .error e => .error e
  | .ok _ =>
  match validateParents parents with
  | .error e => .error e
  | .ok ps => .ok ⟨id, "Folder", name, mimeType, ps, trashed⟩

/-- `File.__eq__` against another `File` (`issubclass` already holds):
`self.md5checksum == other.md5checksum`.  Equality is by content checksum,
not by id. -/
def File.eqRec (a b : File) : Bool := a.md5checksum == b.md5checksum

/-- `Folder.__eq__` against another `Folder` (`issubclass` already holds):
`self.id == other.id`. -/
def Folder.eqRec (a b : Folder) : Bool := a.id == b.id


theorem setEntry_of_absent : ∀ (es : PyEntries) (k : PyKey) (v : PyVal),
    lookupVal es (keyStr k) = Option.none →
    setEntry es k v = appendEntry es k v
  | .nil, _, _, _ => rfl
  | .cons k0 v0 rest, k, v, h => by
      simp only [lookupVal] at h
      cases hc : (keyStr k0 == keyStr k) with
      | true => rw [hc] at h; simp at h
      | false =>
          rw [hc] at h
          simp only [setEntry, appendEntry, hc, Bool.false_eq_true, if_false]
          rw [setEntry_of_absent rest k v h]

theorem lookupVal_appendEntry : ∀ (es : PyEntries) (k : PyKey) (v : PyVal),
    lookupVal es (keyStr k) = Option.none →
    lookupVal (appendEntry es k v) (keyStr k) = some v
  | .nil, k, v, _ => by simp [appendEntry, lookupVal]
  | .cons k0 v0 rest, k, v, h => by
      simp only [lookupVal] at h
      cases hc : (keyStr k0 == keyStr k) with
      | true => rw [hc] at h; simp at h
      | false =>
          rw [hc] at h
          simp only [appendEntry, lookupVal, hc, Bool.false_eq_true, if_false]
          exact lookupVal_appendEntry rest k v h

theorem setEntry_of_present : ∀ (es : PyEntries) (k : PyKey) (v w : PyVal),
    lookupVal es (keyStr k) = some w →
    setEntry es k v = setValueAt es (keyStr k) v
  | .nil, _, _, _, h => by simp [lookupVal] at h
  | .cons k0 v0 rest, k, v, w, h => by
      simp only [lookupVal] at h
      simp only [setEntry, setValueAt]
      cases hc : (keyStr k0 == keyStr k) with
      | true => simp [hc]
      | false =>
          rw [hc] at h
          simp only [hc, Bool.false_eq_true, if_false] at h ⊢
          rw [setEntry_of_present rest k v w h]

theorem fileNodeShape_inv (fs : PyEntries) (h : fileNodeShape fs = true) :
    fs = .cons (.str "info") .none
      (.cons (.str "ancestors") (.list .nil)
        (.cons (.str "size") (.int 0) .nil)) := by
  unfold fileNodeShape at h
  split at h
  · rfl
  · simp at h

theorem goodFolderFields_inv (fs : PyEntries)
    (h : goodFolderFields fs = true) :
    ∃ ies, fs = .cons (.str "info") .none
      (.cons (.str "ancestors") (.list .nil)
        (.cons (.str "size") (.int 0)
          (.cons (.str "items") (.tree ies)
            (.cons (.str "nitems") (.int 0) .nil)))) ∧
      goodEntries ies = true := by
  unfold goodFolderFields at h
  split at h
  · exact ⟨_, rfl, h⟩
  · simp at h

theorem goodEntry_str_inv (a : String) (w : PyVal)
    (h : goodEntry (.str a) w = true) :
    ∃ es0, w = .tree es0 ∧ goodEntries es0 = true := by
  cases w with
  | tree es0 => exact ⟨es0, rfl, h⟩
  | none => simp [goodEntry] at h
  | int n => simp [goodEntry] at h
  | list xs => simp [goodEntry] at h
  | dict fs => simp [goodEntry] at h

theorem goodEntry_tree_inv (k : PyKey) (es : PyEntries)
    (h : goodEntry k (.tree es) = true) :
    (∃ a, k = .str a) ∧ goodEntries es = true := by
  cases k with
  | str a => exact ⟨⟨a, rfl⟩, h⟩
  | itemId s tag => cases tag <;> simp [goodEntry] at h

theorem goodEntry_goodNode (k : PyKey) (v : PyVal)
    (h : goodEntry k v = true) : goodNode v = true := by
  cases k with
  | str a =>
      obtain ⟨es0, rfl, hg⟩ := goodEntry_str_inv a v h
      exact hg
  | itemId s tag =>
      cases tag with
      | file =>
          cases v with
          | dict fs =>
              simp only [goodEntry, Bool.and_eq_true] at h
              simp [goodNode, h.2]
          | none => simp [goodEntry] at h
          | int n => simp [goodEntry] at h
          | list xs => simp [goodEntry] at h
          | tree es => simp [goodEntry] at h
      | folder =>
          cases v with
          | dict fs =>
              simp only [goodEntry, Bool.and_eq_true] at h
              simp [goodNode, h.2]
          | none => simp [goodEntry] at h
          | int n => simp [goodEntry] at h
          | list xs => simp [goodEntry] at h
          | tree es => simp [goodEntry] at h

theorem lookup_goodNode : ∀ (es : PyEntries) (s : String) (v : PyVal),
    goodEntries es = true → lookupVal es s = some v → goodNode v = true
  | .nil, s, v, _, hl => by simp [lookupVal] at hl
  | .cons k0 v0 rest, s, v, hg, hl => by
      simp only [goodEntries, Bool.and_eq_true] at hg
      simp only [lookupVal] at hl
      cases hc : (keyStr k0 == s) with
      | true =>
          rw [hc] at hl
          simp only [if_true] at hl
          cases hl
          exact goodEntry_goodNode k0 v0 hg.1
      | false =>
          rw [hc] at hl
          simp only [Bool.false_eq_true, if_false] at hl
          exact lookup_goodNode rest s v hg.2 hl

theorem lookup_invalid_tree : ∀ (es : PyEntries) (s : String) (v : PyVal),
    goodEntries es = true → is_valid_id s = false → lookupVal es s = some v →
    ∃ es0, v = .tree es0 ∧ goodEntries es0 = true
  | .nil, s, v, _, _, hl => by simp [lookupVal] at hl
  | .cons k0 v0 rest, s, v, hg, hs, hl => by
      simp only [goodEntries, Bool.and_eq_true] at hg
      simp only [lookupVal] at hl
      cases hc : (keyStr k0 == s) with
      | true =>
          rw [hc] at hl
          simp only [if_true] at hl
          cases hl
          have hks : keyStr k0 = s := eq_of_beq hc
          cases k0 with
          | str a => exact goodEntry_str_inv a v0 hg.1
          | itemId t tag =>
              have ht : t = s := hks
              subst ht
              have hg1 := hg.1
              cases tag with
              | file =>
                  cases v0 with
                  | dict fs =>
                      simp only [goodEntry, Bool.and_eq_true] at hg1
                      rw [hg1.1] at hs
                      cases hs
                  | none => simp [goodEntry] at hg1
                  | int n => simp [goodEntry] at hg1
                  | list xs => simp [goodEntry] at hg1
                  | tree es1 => simp [goodEntry] at hg1
              | folder =>
                  cases v0 with
                  | dict fs =>
                      simp only [goodEntry, Bool.and_eq_true] at hg1
                      rw [hg1.1] at hs
                      cases hs
                  | none => simp [goodEntry] at hg1
                  | int n => simp [goodEntry] at hg1
                  | list xs => simp [goodEntry] at hg1
                  | tree es1 => simp [goodEntry] at hg1
      | false =>
          rw [hc] at hl
          simp only [Bool.false_eq_true, if_false] at hl
          exact lookup_invalid_tree rest s v hg.2 hs hl


theorem setValueAt_good : ∀ (es : PyEntries) (s : String) (v vnew : PyVal),
    goodEntries es = true → lookupVal es s = some v →
    (∀ k1, goodEntry k1 v = true → goodEntry k1 vnew = true) →
    goodEntries (setValueAt es s vnew) = true
  | .nil, _, _, _, _, hl, _ => by simp [lookupVal] at hl
  | .cons k0 v0 rest, s, v, vnew, hg, hl, himp => by
      simp only [goodEntries, Bool.and_eq_true] at hg
      simp only [lookupVal] at hl
      simp only [setValueAt]
      cases hc : (keyStr k0 == s) with
      | true =>
          rw [hc] at hl
          rw [if_pos rfl] at hl
          rw [if_pos rfl]
          cases hl
          simp only [goodEntries, Bool.and_eq_true]
          exact ⟨himp k0 hg.1, hg.2⟩
      | false =>
          rw [hc] at hl
          rw [if_neg Bool.false_ne_true] at hl
          rw [if_neg Bool.false_ne_true]
          simp only [goodEntries, Bool.and_eq_true]
          exact ⟨hg.1, setValueAt_good rest s v vnew hg.2 hl himp⟩

theorem appendEntry_good : ∀ (es : PyEntries) (k : PyKey) (v : PyVal),
    goodEntries es = true → goodEntry k v = true →
    goodEntries (appendEntry es k v) = true
  | .nil, k, v, _, hv => by
      simp [appendEntry, goodEntries, hv]
  | .cons k0 v0 rest, k, v, hg, hv => by
      simp only [goodEntries, Bool.and_eq_true] at hg
      simp only [appendEntry, goodEntries, Bool.and_eq_true]
      exact ⟨hg.1, appendEntry_good rest k v hg.2 hv⟩

theorem setEntry_absent_good (es : PyEntries) (k : PyKey) (v : PyVal)
    (hg : goodEntries es = true)
    (hl : lookupVal es (keyStr k) = Option.none)
    (hv : goodEntry k v = true) :
    goodEntries (setEntry es k v) = true := by
  rw [setEntry_of_absent es k v hl]
  exact appendEntry_good es k v hg hv

theorem goodNode_missingItemNode : ∀ tag, goodNode (missingItemNode tag) = true
  | .file => by decide
  | .folder => by decide

theorem goodEntry_missingItemNode (s : String) (tag : Tag)
    (hs : is_valid_id s = true) :
    goodEntry (.itemId s tag) (missingItemNode tag) = true := by
  cases tag with
  | file =>
      have h1 : missingItemNode Tag.file =
          .dict (.cons (.str "info") .none
            (.cons (.str "ancestors") (.list .nil)
              (.cons (.str "size") (.int 0) .nil))) := rfl
      rw [h1]
      simp only [goodEntry, hs, Bool.true_and]
      rfl
  | folder =>
      have h1 : missingItemNode Tag.folder =
          .dict (.cons (.str "info") .none
            (.cons (.str "ancestors") (.list .nil)
              (.cons (.str "size") (.int 0)
                (.cons (.str "items") (.tree .nil)
                  (.cons (.str "nitems") (.int 0) .nil))))) := rfl
      rw [h1]
      simp only [goodEntry, hs, Bool.true_and]
      rfl

theorem getOrCreate_good (es : PyEntries) (k : PyKey)
    (hg : goodEntries es = true) (hk : validOpKey k = true) :
    goodNode (getOrCreate es k).1 = true ∧
    goodEntries (getOrCreate es k).2 = true ∧
    lookupVal (getOrCreate es k).2 (keyStr k) = some (getOrCreate es k).1 := by
  unfold getOrCreate
  cases hl : lookupVal es (keyStr k) with
  | some v =>
      exact ⟨lookup_goodNode es (keyStr k) v hg hl, hg, hl⟩
  | none =>
      cases k with
      | itemId s tag =>
          dsimp only
          refine ⟨goodNode_missingItemNode tag, ?_, ?_⟩
          · exact setEntry_absent_good es _ _ hg hl
              (goodEntry_missingItemNode s tag hk)
          · rw [setEntry_of_absent es _ _ hl]
            exact lookupVal_appendEntry es _ _ hl
      | str s =>
          dsimp only
          refine ⟨rfl, ?_, ?_⟩
          · exact setEntry_absent_good es _ _ hg hl rfl
          · rw [setEntry_of_absent es _ _ hl]
            exact lookupVal_appendEntry es _ _ hl

theorem delitem_succ (n : Nat) (es : PyEntries) (key : PyKey) :
    delitem (n + 1) es key =
      (match getOrCreate es key with
      | (PyVal.tree ves, es1) =>
          match getOrCreate ves (PyKey.str "ancestors") with
          | (anc, ves1) =>
              if truthy anc then
                match anc with
                | PyVal.list xs =>
                    match ancestorPhase xs ves1 with
                    | (some e, xs1, ves2) =>
                        (DelRes.err e, delWriteBack es1 key ves2 xs1)
                    | (Option.none, xs2, ves2) =>
                        delitem n (delWriteBack es1 key ves2 xs2) key
                | _ => (DelRes.err .typeErr, setEntry es1 key (.tree ves1))
              else delitem n (setEntry es1 key (.tree ves1)) key
      | (_, es1) => delitem n es1 key) := rfl

theorem appliesAt_goodEntry {f : PyEntries → PyEntries}
    (hf : ∀ t, goodEntries t = true → goodEntries (f t) = true)
    {v v' : PyVal} (h : AppliesAt f v v') :
    ∀ k0, goodEntry k0 v = true → goodEntry k0 v' = true := by
  induction h with
  | here es =>
      intro k0 hk
      obtain ⟨⟨a, rfl⟩, hes⟩ := goodEntry_tree_inv k0 es hk
      exact hf es hes
  | inEntry es s u u' hl hsub ih =>
      intro k0 hk
      obtain ⟨⟨a, rfl⟩, hes⟩ := goodEntry_tree_inv k0 es hk
      exact setValueAt_good es s u u' hes hl ih
  | inField fs g u u' hl hsub ih =>
      intro k0 hk
      cases k0 with
      | str a => exact absurd hk (by simp [goodEntry])
      | itemId s tag =>
          cases tag with
          | file =>
              simp only [goodEntry, Bool.and_eq_true] at hk
              obtain ⟨hs, hshape⟩ := hk
              have hfs := fileNodeShape_inv fs hshape
              subst hfs
              simp only [lookupVal, keyStr] at hl
              by_cases h1 : ("info" == g) = true
              · rw [if_pos h1] at hl; cases hl; cases hsub
              · rw [if_neg h1] at hl
                by_cases h2 : ("ancestors" == g) = true
                · rw [if_pos h2] at hl; cases hl; cases hsub
                · rw [if_neg h2] at hl
                  by_cases h3 : ("size" == g) = true
                  · rw [if_pos h3] at hl; cases hl; cases hsub
                  · rw [if_neg h3] at hl; cases hl
          | folder =>
              simp only [goodEntry, Bool.and_eq_true] at hk
              obtain ⟨hs, hshape⟩ := hk
              obtain ⟨ies, hfs, hies⟩ := goodFolderFields_inv fs hshape
              subst hfs
              simp only [lookupVal, keyStr] at hl
              by_cases h1 : ("info" == g) = true
              · rw [if_pos h1] at hl; cases hl; cases hsub
              · rw [if_neg h1] at hl
                by_cases h2 : ("ancestors" == g) = true
                · rw [if_pos h2] at hl; cases hl; cases hsub
                · rw [if_neg h2] at hl
                  by_cases h3 : ("size" == g) = true
                  · rw [if_pos h3] at hl; cases hl; cases hsub
                  · rw [if_neg h3] at hl
                    by_cases h4 : ("items" == g) = true
                    · rw [if_pos h4] at hl
                      cases hl
                      have hgi : "items" = g := eq_of_beq h4
                      subst hgi
                      have hu' := ih (.str "k") hies
                      obtain ⟨ies', rfl, hies'⟩ :=
                        goodEntry_str_inv "k" u' hu'
                      have hset : setValueAt
                          (.cons (.str "info") .none
                            (.cons (.str "ancestors") (.list .nil)
                              (.cons (.str "size") (.int 0)
                                (.cons (.str "items") (.tree ies)
                                  (.cons (.str "nitems") (.int 0)
                                    .nil)))))
                          "items" (PyVal.tree ies') =
                          (.cons (.str "info") .none
                            (.cons (.str "ancestors") (.list .nil)
                              (.cons (.str "size") (.int 0)
                                (.cons (.str "items") (.tree ies')
                                  (.cons (.str "nitems") (.int 0)
                                    .nil))))) := rfl
                      rw [hset]
                      simp only [goodEntry, Bool.and_eq_true]
                      exact ⟨hs, hies'⟩
                    · rw [if_neg h4] at hl
                      by_cases h5 : ("nitems" == g) = true
                      · rw [if_pos h5] at hl; cases hl; cases hsub
                      · rw [if_neg h5] at hl; cases hl

theorem delitem_good (k : PyKey) (hk : validOpKey k = true) :
    ∀ (fuel : Nat) (es : PyEntries), goodEntries es = true →
    goodEntries (delitem fuel es k).2 = true := by
  intro fuel
  induction fuel with
  | zero => intro es hg; exact hg
  | succ n ih =>
      intro es hg
      rw [delitem_succ]
      obtain ⟨hnodeV, hges1, hlook1⟩ := getOrCreate_good es k hg hk
      rcases hgo : getOrCreate es k with ⟨val, es1⟩
      rw [hgo] at hnodeV hges1 hlook1
      dsimp only at hnodeV hges1 hlook1
      cases val with
      | tree ves =>
          dsimp only
          have hves : goodEntries ves = true := hnodeV
          obtain ⟨hancN, hves1, _⟩ :=
            getOrCreate_good ves (.str "ancestors") hves rfl
          rcases hga : getOrCreate ves (.str "ancestors") with ⟨anc, ves1⟩
          rw [hga] at hancN hves1
          dsimp only at hancN hves1
          dsimp only
          have hset : setEntry es1 k (.tree ves1) =
              setValueAt es1 (keyStr k) (.tree ves1) :=
            setEntry_of_present es1 k (.tree ves1) (.tree ves) hlook1
          have hes2 : goodEntries (setEntry es1 k (.tree ves1)) = true := by
            rw [hset]
            refine setValueAt_good es1 (keyStr k) (.tree ves) (.tree ves1)
              hges1 hlook1 ?_
            intro k1 h1
            obtain ⟨⟨a, hka⟩, _⟩ := goodEntry_tree_inv k1 ves h1
            subst hka
            exact hves1
          by_cases ht : truthy anc = true
          · rw [if_pos ht]
            cases anc with
            | list xs => simp [goodNode] at hancN
            | none => exact hes2
            | int n0 => exact hes2
            | dict fs => exact hes2
            | tree es0 => exact hes2
          · rw [if_neg ht]
            exact ih _ hes2
      | none => exact ih es1 hges1
      | int n0 => exact ih es1 hges1
      | list xs => exact ih es1 hges1
      | dict fs => exact ih es1 hges1

theorem getOrCreate_entries_good (k : PyKey) (hk : validOpKey k = true)
    (t : PyEntries) (hg : goodEntries t = true) :
    goodEntries (getOrCreate t k).2 = true :=
  (getOrCreate_good t k hg hk).2.1

theorem reachable_good (es : PyEntries) (h : Reachable es) :
    goodEntries es = true := by
  induction h with
  | init => rfl
  | lookup es0 es' k hre hk happ ih =>
      exact appliesAt_goodEntry (getOrCreate_entries_good k hk) happ
        (.str "root") ih
  | remove es0 es' k fuel hre hk happ ih =>
      exact appliesAt_goodEntry (fun t hg => delitem_good k hk fuel t hg) happ
        (.str "root") ih

mutual
theorem good_sumSizes : ∀ (es : PyEntries), goodEntries es = true →
    sumSizes es = 0
  | .nil, _ => rfl
  | .cons k v rest, h => by
      simp only [goodEntries, Bool.and_eq_true] at h
      have h1 := good_nodeSize k v h.1
      have h2 := good_sumSizes rest h.2
      simp only [sumSizes, h1, h2, add_zero]

theorem good_nodeSize : ∀ (k : PyKey) (v : PyVal), goodEntry k v = true →
    nodeSize v = 0
  | k, v, h => by
      cases k with
      | str a =>
          obtain ⟨es0, rfl, hg⟩ := goodEntry_str_inv a v h
          exact good_sumSizes es0 hg
      | itemId s tag =>
          cases tag with
          | file =>
              cases v with
              | dict fs =>
                  simp only [goodEntry, Bool.and_eq_true] at h
                  rw [fileNodeShape_inv fs h.2]
                  rfl
              | none => simp [goodEntry] at h
              | int n => simp [goodEntry] at h
              | list xs => simp [goodEntry] at h
              | tree es => simp [goodEntry] at h
          | folder =>
              cases v with
              | dict fs =>
                  simp only [goodEntry, Bool.and_eq_true] at h
                  obtain ⟨ies, hfs, hies⟩ := goodFolderFields_inv fs h.2
                  subst hfs
                  rfl
              | none => simp [goodEntry] at h
              | int n => simp [goodEntry] at h
              | list xs => simp [goodEntry] at h
              | tree es => simp [goodEntry] at h
end

mutual
theorem good_sizeInvEntries : ∀ (es : PyEntries), goodEntries es = true →
    sizeInvEntries es = true
  | .nil, _ => rfl
  | .cons k v rest, h => by
      simp only [goodEntries, Bool.and_eq_true] at h
      have h1 := good_sizeInvB k v h.1
      have h2 := good_sizeInvEntries rest h.2
      simp only [sizeInvEntries, h1, h2, Bool.and_self]

theorem good_sizeInvB : ∀ (k : PyKey) (v : PyVal), goodEntry k v = true →
    sizeInvB v = true
  | k, v, h => by
      cases k with
      | str a =>
          obtain ⟨es0, rfl, hg⟩ := goodEntry_str_inv a v h
          exact good_sizeInvEntries es0 hg
      | itemId s tag =>
          cases tag with
          | file =>
              cases v with
              | dict fs =>
                  simp only [goodEntry, Bool.and_eq_true] at h
                  rw [fileNodeShape_inv fs h.2]
                  rfl
              | none => simp [goodEntry] at h
              | int n => simp [goodEntry] at h
              | list xs => simp [goodEntry] at h
              | tree es => simp [goodEntry] at h
          | folder =>
              cases v with
              | dict fs =>
                  simp only [goodEntry, Bool.and_eq_true] at h
                  obtain ⟨ies, hfs, hies⟩ := goodFolderFields_inv fs h.2
                  subst hfs
                  have e2 : folderSizeOk
                      (.cons (.str "info") .none
                        (.cons (.str "ancestors") (.list .nil)
                          (.cons (.str "size") (.int 0)
                            (.cons (.str "items") (.tree ies)
                              (.cons (.str "nitems") (.int 0) .nil))))) =
                      ((0 : Int) == sumSizes ies) := rfl
                  have e4 : sizeInvB (PyVal.tree ies) = sizeInvEntries ies :=
                    rfl
                  show (folderSizeOk _ && sizeInvEntries _) = true
                  rw [e2, good_sumSizes ies hies]
                  simp only [sizeInvEntries, sizeInvB, sizeInvList, e4,
                    good_sizeInvEntries ies hies]
                  rfl
              | none => simp [goodEntry] at h
              | int n => simp [goodEntry] at h
              | list xs => simp [goodEntry] at h
              | tree es => simp [goodEntry] at h
end

mutual
theorem good_nitemsZeroEntries : ∀ (es : PyEntries), goodEntries es = true →
    nitemsZeroEntries es = true
  | .nil, _ => rfl
  | .cons k v rest, h => by
      simp only [goodEntries, Bool.and_eq_true] at h
      have h1 := good_nitemsZeroB k v h.1
      have h2 := good_nitemsZeroEntries rest h.2
      simp only [nitemsZeroEntries, h1, h2, Bool.and_self]

theorem good_nitemsZeroB : ∀ (k : PyKey) (v : PyVal), goodEntry k v = true →
    nitemsZeroB v = true
  | k, v, h => by
      cases k with
      | str a =>
          obtain ⟨es0, rfl, hg⟩ := goodEntry_str_inv a v h
          exact good_nitemsZeroEntries es0 hg
      | itemId s tag =>
          cases tag with
          | file =>
              cases v with
              | dict fs =>
                  simp only [goodEntry, Bool.and_eq_true] at h
                  rw [fileNodeShape_inv fs h.2]
                  rfl
              | none => simp [goodEntry] at h
              | int n => simp [goodEntry] at h
              | list xs => simp [goodEntry] at h
              | tree es => simp [goodEntry] at h
          | folder =>
              cases v with
              | dict fs =>
                  simp only [goodEntry, Bool.and_eq_true] at h
                  obtain ⟨ies, hfs, hies⟩ := goodFolderFields_inv fs h.2
                  subst hfs
                  have e4 : nitemsZeroB (PyVal.tree ies) =
                      nitemsZeroEntries ies := rfl
                  show (folderNitemsZero
                      (.cons (.str "info") .none
                        (.cons (.str "ancestors") (.list .nil)
                          (.cons (.str "size") (.int 0)
                            (.cons (.str "items") (.tree ies)
                              (.cons (.str "nitems") (.int 0) .nil))))) &&
                    nitemsZeroEntries
                      (.cons (.str "info") .none
                        (.cons (.str "ancestors") (.list .nil)
                          (.cons (.str "size") (.int 0)
                            (.cons (.str "items") (.tree ies)
                              (.cons (.str "nitems") (.int 0) .nil)))))) =
                    true
                  simp only [nitemsZeroEntries, nitemsZeroB, nitemsZeroList,
                    e4, good_nitemsZeroEntries ies hies]
                  rfl
              | none => simp [goodEntry] at h
              | int n => simp [goodEntry] at h
              | list xs => simp [goodEntry] at h
              | tree es => simp [goodEntry] at h
end

theorem getOrCreate_of_present (es : PyEntries) (k : PyKey) (v : PyVal)
    (h : lookupVal es (keyStr k) = some v) :
    getOrCreate es k = (v, es) := by
  unfold getOrCreate
  rw [h]

/-- A pattern-valid Folder identifier string used for concrete witnesses. -/
def sampleFolderId : String := "AAAAAAAAAAAAAAAAAAAAAAAAA"

/-- A pattern-valid File identifier string used for concrete witnesses. -/
def sampleFileId : String := "BBBBBBBBBBBBBBBBBBBBBBBBB"

/-- A well-formed md5 checksum string used for concrete witnesses. -/
def sampleMd5 : String := "0123456789abcdef0123456789abcdef"

/-- State after `get_or_create` of a Folder-tagged identifier on a fresh
tree: one folder aggregation node with empty `items`. -/
def sampleState1 : PyEntries :=
  .cons (.itemId sampleFolderId .folder)
    (.dict (.cons (.str "info") .none
      (.cons (.str "ancestors") (.list .nil)
        (.cons (.str "size") (.int 0)
          (.cons (.str "items") (.tree .nil)
            (.cons (.str "nitems") (.int 0) .nil))))))
    .nil

/-- State after additionally `get_or_create`-ing a File-tagged identifier
inside that folder node's `items`: the folder's `items` now holds one entry
while its `nitems` is still 0. -/
def sampleState : PyEntries :=
  .cons (.itemId sampleFolderId .folder)
    (.dict (.cons (.str "info") .none
      (.cons (.str "ancestors") (.list .nil)
        (.cons (.str "size") (.int 0)
          (.cons (.str "items")
            (.tree (.cons (.itemId sampleFileId .file)
              (.dict (.cons (.str "info") .none
                (.cons (.str "ancestors") (.list .nil)
                  (.cons (.str "size") (.int 0) .nil)))) .nil))
            (.cons (.str "nitems") (.int 0) .nil))))))
    .nil

theorem sampleState1_reachable : Reachable sampleState1 :=
  Reachable.lookup .nil sampleState1 (.itemId sampleFolderId .folder)
    Reachable.init (by decide) (AppliesAt.here .nil)

theorem sampleState_reachable : Reachable sampleState :=
  Reachable.lookup sampleState1 sampleState (.itemId sampleFileId .file)
    sampleState1_reachable (by decide)
    (AppliesAt.inEntry sampleState1 sampleFolderId _ _ rfl
      (AppliesAt.inField _ "items" (.tree .nil) _ rfl (AppliesAt.here .nil)))

/-- State reachable by three string-key lookups: `t = FileTree()`,
`t['p']`, `t['p']['ancestors']`, `t['p']['ancestors']['x']`.  The value at
`'p'` is a nested structure whose `ancestors` entry is non-empty (truthy). -/
def c2State : PyEntries :=
  .cons (.str "p")
    (.tree (.cons (.str "ancestors")
      (.tree (.cons (.str "x") (.tree .nil) .nil)) .nil)) .nil

/-- Intermediate state `{'p': {}}`. -/
def c2StateA : PyEntries := .cons (.str "p") (.tree .nil) .nil

/-- Intermediate state `{'p': {'ancestors': {}}}`. -/
def c2StateB : PyEntries :=
  .cons (.str "p") (.tree (.cons (.str "ancestors") (.tree .nil) .nil)) .nil

theorem c2State_reachable : Reachable c2State := by
  have h1 : Reachable c2StateA :=
    Reachable.lookup .nil c2StateA (.str "p") Reachable.init (by decide)
      (AppliesAt.here .nil)
  have h2 : Reachable c2StateB :=
    Reachable.lookup c2StateA c2StateB (.str "ancestors") h1 (by decide)
      (AppliesAt.inEntry c2StateA "p" (.tree .nil) _ rfl
        (AppliesAt.here .nil))
  exact Reachable.lookup c2StateB c2State (.str "x") h2 (by decide)
    (AppliesAt.inEntry c2StateB "p" _ _ rfl
      (AppliesAt.inEntry (.cons (.str "ancestors") (.tree .nil) .nil)
        "ancestors" (.tree .nil) _ rfl (AppliesAt.here .nil)))

/-- C1: Size aggregation invariant.  For every tree state reachable by any
sequence of `get_or_create` lookups and removals (each applied at any
`FileTree` within the structure, with constructible keys), every Folder
aggregation node's `size` equals the sum of `size` over all entries in its
`items` sub-structure, transitively.  In these states every `size` field is
in fact 0: lookups create nodes with `size = 0` and never change a size, and
a removal never completes normally (its net state effect is that of its
internal lookups). -/
theorem c1_size_invariant_reachable (es : PyEntries) (h : Reachable es) :
    sizeInvB (.tree es) = true :=
  good_sizeInvEntries es (reachable_good es h)

theorem c1_size_invariant_witness : sizeInvB (.tree sampleState) = true :=
  c1_size_invariant_reachable sampleState sampleState_reachable

/-- C2: Removal propagation step (code bug).  `c2State`, reachable by the
structure's own lookups, holds at key `'p'` a nested aggregation structure
whose `ancestors` entry is non-empty.  Removing `'p'` performs NONE of the
claimed propagation: for every recursion budget the call raises `TypeError`
(iterating the `ancestors` mapping yields its keys, i.e. strings, and the
loop body subscripts `ancestor['size']` on a string) and leaves the state
unchanged — no ancestor `size` is adjusted, no `nitems` is decremented, no
cascading removal happens, and the entry at `'p'` is still present.  Even
with a genuine list of ancestor records the method cannot do what the claim
says: `del ancestor` merely unbinds the local variable instead of removing
the ancestor's entry from its parent, and the final `del self[key]`
re-enters `__delitem__` itself, so the operation never completes. -/
theorem c2_removal_propagation_bug :
    Reachable c2State ∧
    ∀ (fuel : Nat),
      delitem (fuel + 1) c2State (.str "p") = (.err .typeErr, c2State) :=
  ⟨c2State_reachable, fun _ => rfl⟩

/-- C3: Removal never terminates normally (code bug).  For every recursion
budget, every tree state and every key, `__delitem__` either raises or
exhausts the budget — it never returns normally, because both
`del self[key]` statements inside the method re-invoke the method itself.
In particular removal never terminates leaving the structure without the
entry, contradicting the claim for every tree and every present key. -/
theorem c3_removal_never_completes :
    ∀ (fuel : Nat) (es : PyEntries) (k : PyKey),
      DelRes.isOk (delitem fuel es k).1 = false := by
  intro fuel
  induction fuel with
  | zero => intro es k; rfl
  | succ n ih =>
      intro es k
      rw [delitem_succ]
      rcases hgo : getOrCreate es k with ⟨val, es1⟩
      cases val with
      | tree ves =>
          dsimp only
          rcases hga : getOrCreate ves (.str "ancestors") with ⟨anc, ves1⟩
          dsimp only
          by_cases ht : truthy anc = true
          · rw [if_pos ht]
            cases anc with
            | list xs =>
                dsimp only
                rcases hap : ancestorPhase xs ves1 with ⟨r, xs1, ves2⟩
                cases r with
                | some e => rfl
                | none => exact ih _ _
            | none => rfl
            | int n0 => rfl
            | dict fs => rfl
            | tree es0 => rfl
          · rw [if_neg ht]
            exact ih _ _
      | none => exact ih _ _
      | int n0 => exact ih _ _
      | list xs => exact ih _ _
      | dict fs => exact ih _ _

/-- C4 counterexample: the item-count invariant fails on a reachable state.
`sampleState` is built by two lookups (a Folder-tagged identifier at the
root, then a File-tagged identifier inside that folder node's `items`): the
folder node's `items` then has one direct entry while its `nitems` is still
0, so `nitems` does not equal the number of direct entries. -/
theorem c4_nitems_invariant_counterexample :
    Reachable sampleState ∧ nitemsInvB (.tree sampleState) = false :=
  ⟨sampleState_reachable, by decide⟩

/-- C4 (amended): in every reachable tree state, every Folder aggregation
node's `nitems` field equals 0 — lookups create folder nodes with
`nitems = 0` and never increment it (creating an entry inside the folder's
`items` does not touch it), and removals never complete normally — so
`nitems` equals the number of direct entries of `items` only while `items`
is empty. -/
theorem c4_nitems_zero_reachable (es : PyEntries) (h : Reachable es) :
    nitemsZeroB (.tree es) = true :=
  good_nitemsZeroEntries es (reachable_good es h)

theorem c4_nitems_zero_witness : nitemsZeroB (.tree sampleState1) = true :=
  c4_nitems_zero_reachable sampleState1 sampleState1_reachable

/-- C5: Lookup idempotence.  The first lookup of an absent key appends
exactly one new entry (everything else unchanged), and a subsequent lookup
of the same key returns that identical node and leaves the state unchanged
(no fresh default is created and no field is reset). -/
theorem c5_lookup_idempotent (es : PyEntries) (k : PyKey)
    (h : lookupVal es (keyStr k) = Option.none) :
    (getOrCreate es k).2 = appendEntry es k (getOrCreate es k).1 ∧
    getOrCreate (getOrCreate es k).2 k =
      ((getOrCreate es k).1, (getOrCreate es k).2) := by
  have hset : (getOrCreate es k).2 = setEntry es k (getOrCreate es k).1 := by
    unfold getOrCreate
    rw [h]
    cases k with
    | itemId s tag => rfl
    | str s => rfl
  have happ : (getOrCreate es k).2 =
      appendEntry es k (getOrCreate es k).1 := by
    rw [hset, setEntry_of_absent es k _ h]
  have hl2 : lookupVal (getOrCreate es k).2 (keyStr k) =
      some (getOrCreate es k).1 := by
    rw [happ]
    exact lookupVal_appendEntry es k _ h
  exact ⟨happ, getOrCreate_of_present _ k _ hl2⟩

theorem c5_lookup_idempotent_witness :
    (getOrCreate .nil (.str "p")).2 =
      appendEntry .nil (.str "p") (getOrCreate .nil (.str "p")).1 ∧
    getOrCreate (getOrCreate .nil (.str "p")).2 (.str "p") =
      ((getOrCreate .nil (.str "p")).1, (getOrCreate .nil (.str "p")).2) :=
  c5_lookup_idempotent .nil (.str "p") rfl

/-- C6: Lazy-default shapes.  Looking up an absent key creates and inserts:
for a Folder-tagged identifier, a node with `info = None`, empty
`ancestors`, `size = 0`, a fresh empty nested structure as `items`, and
`nitems = 0`; for a File-tagged identifier, a node with `info = None`,
empty `ancestors` and `size = 0` and no `items`/`nitems` entries; for a
plain string, an empty nested aggregation structure. -/
theorem c6_lazy_default_shapes (es : PyEntries) (s : String)
    (h : lookupVal es s = Option.none) :
    getOrCreate es (.itemId s .folder) =
      (.dict (.cons (.str "info") .none
        (.cons (.str "ancestors") (.list .nil)
          (.cons (.str "size") (.int 0)
            (.cons (.str "items") (.tree .nil)
              (.cons (.str "nitems") (.int 0) .nil))))),
       setEntry es (.itemId s .folder)
        (.dict (.cons (.str "info") .none
          (.cons (.str "ancestors") (.list .nil)
            (.cons (.str "size") (.int 0)
              (.cons (.str "items") (.tree .nil)
                (.cons (.str "nitems") (.int 0) .nil))))))) ∧
    getOrCreate es (.itemId s .file) =
      (.dict (.cons (.str "info") .none
        (.cons (.str "ancestors") (.list .nil)
          (.cons (.str "size") (.int 0) .nil))),
       setEntry es (.itemId s .file)
        (.dict (.cons (.str "info") .none
          (.cons (.str "ancestors") (.list .nil)
            (.cons (.str "size") (.int 0) .nil))))) ∧
    getOrCreate es (.str s) =
      (.tree .nil, setEntry es (.str s) (.tree .nil)) := by
  refine ⟨?_, ?_, ?_⟩ <;>
    · unfold getOrCreate
      simp only [keyStr]
      rw [h]
      try rfl

theorem c6_lazy_default_shapes_witness :
    getOrCreate .nil (.itemId sampleFolderId .folder) =
      (.dict (.cons (.str "info") .none
        (.cons (.str "ancestors") (.list .nil)
          (.cons (.str "size") (.int 0)
            (.cons (.str "items") (.tree .nil)
              (.cons (.str "nitems") (.int 0) .nil))))),
       setEntry .nil (.itemId sampleFolderId .folder)
        (.dict (.cons (.str "info") .none
          (.cons (.str "ancestors") (.list .nil)
            (.cons (.str "size") (.int 0)
              (.cons (.str "items") (.tree .nil)
                (.cons (.str "nitems") (.int 0) .nil))))))) ∧
    getOrCreate .nil (.itemId sampleFolderId .file) =
      (.dict (.cons (.str "info") .none
        (.cons (.str "ancestors") (.list .nil)
          (.cons (.str "size") (.int 0) .nil))),
       setEntry .nil (.itemId sampleFolderId .file)
        (.dict (.cons (.str "info") .none
          (.cons (.str "ancestors") (.list .nil)
            (.cons (.str "size") (.int 0) .nil))))) ∧
    getOrCreate .nil (.str sampleFolderId) =
      (.tree .nil, setEntry .nil (.str sampleFolderId) (.tree .nil)) :=
  c6_lazy_default_shapes .nil sampleFolderId rfl

/-- Concrete File record: checksum `sampleMd5`, id `sampleFolderId`. -/
def fileRecA : File :=
  ⟨sampleFolderId, "File", "first", "text/plain", [], 1, sampleMd5, false⟩

/-- Concrete File record: same checksum as `fileRecA`, different id. -/
def fileRecB : File :=
  ⟨sampleFileId, "File", "second", "image/png", [], 2, sampleMd5, true⟩

/-- Concrete Folder record with id `sampleFolderId`. -/
def folderRecA : Folder :=
  ⟨sampleFolderId, "Folder", "first", FOLDER_MIME_TYPE, [], false⟩

/-- Concrete Folder record: same id as `folderRecA`, different name. -/
def folderRecB : Folder :=
  ⟨sampleFolderId, "Folder", "second", FOLDER_MIME_TYPE, [], true⟩

/-- C7: Equality contracts.  Any two File records with identical
`md5checksum` compare equal even when their `id` fields differ
(`File.__eq__` compares checksums only), and any two Folder records with
identical `id` compare equal even when their `name` fields differ
(`Folder.__eq__` compares ids only). -/
theorem c7_equality_contracts :
    (∀ a b : File, a.md5checksum = b.md5checksum → a.id ≠ b.id →
      File.eqRec a b = true) ∧
    (∀ c d : Folder, c.id = d.id → c.name ≠ d.name →
      Folder.eqRec c d = true) := by
  constructor
  · intro a b hmd _
    simp [File.eqRec, hmd]
  · intro c d hid _
    simp [Folder.eqRec, hid]

theorem c7_equality_contracts_witness :
    File.eqRec fileRecA fileRecB = true ∧
    Folder.eqRec folderRecA folderRecB = true :=
  ⟨c7_equality_contracts.1 fileRecA fileRecB rfl (by decide),
   c7_equality_contracts.2 folderRecA folderRecB rfl (by decide)⟩

/-- C8: Identifier validity.  For every string that does not fully match
`[-\w]{25,}`, identifier construction fails with the invalid-identifier
error (`TypeError("Not a valid ItemID.")`); for every string that matches,
construction succeeds with the string itself as the identifier, and two
identifiers are equal exactly when their underlying strings are equal
(equality is inherited from `str` and ignores the tags). -/
theorem c8_identifier_validity :
    ∀ (s t : String) (tag1 tag2 : Tag),
      (patternFullmatch s = false → itemIdNew s tag1 = .error .typeErr) ∧
      (patternFullmatch s = true → itemIdNew s tag1 = .ok (.itemId s tag1)) ∧
      (patternFullmatch s = true → patternFullmatch t = true →
        (idEq (.itemId s tag1) (.itemId t tag2) = true ↔ s = t)) := by
  intro s t tag1 tag2
  refine ⟨?_, ?_, ?_⟩
  · intro h
    simp [itemIdNew, is_valid_id, h]
  · intro h
    simp [itemIdNew, is_valid_id, h]
  · intro _ _
    constructor
    · intro h
      exact eq_of_beq h
    · intro h
      subst h
      simp [idEq, keyStr]

theorem c8_identifier_validity_witness :
    itemIdNew "tooShort" .file = .error .typeErr ∧
    itemIdNew sampleFolderId .folder = .ok (.itemId sampleFolderId .folder) ∧
    (idEq (.itemId sampleFolderId .folder) (.itemId sampleFileId .file) =
      true ↔ sampleFolderId = sampleFileId) :=
  ⟨(c8_identifier_validity "tooShort" sampleFileId .file .file).1 (by decide),
   (c8_identifier_validity sampleFolderId sampleFileId .folder .file).2.1
     (by decide),
   (c8_identifier_validity sampleFolderId sampleFileId .folder .file).2.2
     (by decide) (by decide)⟩

/-- C9 counterexample: constructing a File with an empty `name` SUCCEEDS —
`name` is a plain slot assigned without any validation (`File.__slots__`
holds `name` directly; only `id`, `mimeType`, `size` and `md5checksum` go
through validating descriptors), so the claim that construction with an
empty name fails is false. -/
theorem c9_empty_name_accepted :
    File.create sampleFolderId "" "text/plain" [] false 0 sampleMd5 =
      .ok ⟨sampleFolderId, "File", "", "text/plain", [], 0, sampleMd5,
        false⟩ := rfl

/-- C9 (amended): the `name` field is NOT validated: for every string
`name`, including the empty string, File and Folder construction with
otherwise valid fields succeeds and stores `name` unchanged; only `id`,
`mimeType`, `size` and `md5checksum` are validated at construction. -/
theorem c9_name_not_validated :
    ∀ nm : String,
      File.create sampleFolderId nm "text/plain" [] false 0 sampleMd5 =
        .ok ⟨sampleFolderId, "File", nm, "text/plain", [], 0, sampleMd5,
          false⟩ ∧
      Folder.create sampleFolderId nm [] false FOLDER_MIME_TYPE =
        .ok ⟨sampleFolderId, "Folder", nm, FOLDER_MIME_TYPE, [], false⟩ :=
  fun _ => ⟨rfl, rfl⟩

/-- C10: identifier equality and hashing ignore the variant tag — for every
string `s`, the File-tagged and the Folder-tagged identifier for `s` are
equal and hash equally, so in a `FileTree` both select the same entry: after
a first lookup with the Folder tag, a lookup with the File tag returns the
SAME folder-shaped node unchanged (and symmetrically for File first), i.e.
the node shape is fixed by whichever tag performed the first lookup. -/
theorem c10_tag_ignored (es : PyEntries) (s : String)
    (h : lookupVal es s = Option.none) :
    idEq (.itemId s .file) (.itemId s .folder) = true ∧
    idHash (.itemId s .file) = idHash (.itemId s .folder) ∧
    (getOrCreate es (.itemId s .folder)).1 = missingItemNode .folder ∧
    getOrCreate (getOrCreate es (.itemId s .folder)).2 (.itemId s .file) =
      (missingItemNode .folder, (getOrCreate es (.itemId s .folder)).2) ∧
    (getOrCreate es (.itemId s .file)).1 = missingItemNode .file ∧
    getOrCreate (getOrCreate es (.itemId s .file)).2 (.itemId s .folder) =
      (missingItemNode .file, (getOrCreate es (.itemId s .file)).2) := by
  have hFol1 : (getOrCreate es (.itemId s .folder)).1 =
      missingItemNode .folder := by
    unfold getOrCreate
    simp only [keyStr]
    rw [h]
  have hFol2 : (getOrCreate es (.itemId s .folder)).2 =
      setEntry es (.itemId s .folder) (missingItemNode .folder) := by
    unfold getOrCreate
    simp only [keyStr]
    rw [h]
  have hFil1 : (getOrCreate es (.itemId s .file)).1 =
      missingItemNode .file := by
    unfold getOrCreate
    simp only [keyStr]
    rw [h]
  have hFil2 : (getOrCreate es (.itemId s .file)).2 =
      setEntry es (.itemId s .file) (missingItemNode .file) := by
    unfold getOrCreate
    simp only [keyStr]
    rw [h]
  have hl2 : lookupVal (getOrCreate es (.itemId s .folder)).2 s =
      some (missingItemNode .folder) := by
    rw [hFol2, setEntry_of_absent es (.itemId s .folder) _ h]
    exact lookupVal_appendEntry es (.itemId s .folder) _ h
  have hl3 : lookupVal (getOrCreate es (.itemId s .file)).2 s =
      some (missingItemNode .file) := by
    rw [hFil2, setEntry_of_absent es (.itemId s .file) _ h]
    exact lookupVal_appendEntry es (.itemId s .file) _ h
  refine ⟨by simp [idEq, keyStr], rfl, hFol1, ?_, hFil1, ?_⟩
  · exact getOrCreate_of_present _ (.itemId s .file) _ hl2
  · exact getOrCreate_of_present _ (.itemId s .folder) _ hl3

theorem c10_tag_ignored_witness :
    idEq (.itemId sampleFileId .file) (.itemId sampleFileId .folder) =
      true ∧
    idHash (.itemId sampleFileId .file) =
      idHash (.itemId sampleFileId .folder) ∧
    (getOrCreate .nil (.itemId sampleFileId .folder)).1 =
      missingItemNode .folder ∧
    getOrCreate (getOrCreate .nil (.itemId sampleFileId .folder)).2
        (.itemId sampleFileId .file) =
      (missingItemNode .folder,
        (getOrCreate .nil (.itemId sampleFileId .folder)).2) ∧
    (getOrCreate .nil (.itemId sampleFileId .file)).1 =
      missingItemNode .file ∧
    getOrCreate (getOrCreate .nil (.itemId sampleFileId .file)).2
        (.itemId sampleFileId .folder) =
      (missingItemNode .file,
        (getOrCreate .nil (.itemId sampleFileId .file)).2) :=
  c10_tag_ignored .nil sampleFileId rfl
